import Mathlib

/-!
Verification development for `airflow/models/variable.py`: a key-value
variable store with optional Fernet encryption of stored values.

Python strings and byte strings are modelled as `List Char` (the utf-8
encode/decode round trip in the source is modelled as the identity).
The mutable module-global `_fernet` cache is modelled by explicit state
passing (`Option Fernet`, `none` modelling Python `None`), and log calls
are modelled by an output list of messages.
-/

abbrev Str := List Char

/-- Log levels of the logging collaborator (only warning/error are used). -/
inductive LogLevel where
  | warning
  | error
deriving DecidableEq, Repr

/-- The four log calls issued by the source, by identity rather than by
their literal message text. -/
inductive LogMsg where
  /-- Warning log: cryptography not found - values will not be stored encrypted. -/
  | warnCryptoNotFound
  /-- Warning log: empty cryptography key - values will not be stored encrypted. -/
  | warnEmptyKey
  /-- Error log for a failed decryption: invalid token or value. -/
  | errInvalidToken (key : Str)
  /-- Error log for a failed decryption: FERNET_KEY configuration missing. -/
  | errFernetKeyMissing (key : Str)
deriving DecidableEq, Repr

def LogMsg.level : LogMsg → LogLevel
  | .warnCryptoNotFound => .warning
  | .warnEmptyKey => .warning
  | .errInvalidToken _ => .error
  | .errFernetKeyMissing _ => .error

/-- Python exceptions that appear in the control flow of the source. -/
inductive PyErr where
  /-- The `cryptography.fernet.InvalidToken` class (rebound to `InvalidFernetToken`). -/
  | invalidToken
  /-- Python `AttributeError`: a method looked up on an object that lacks it. -/
  | attributeError
  /-- The `AirflowException` raised by `get_fernet` on bad key material. -/
  | airflowException
  /-- The `KeyError` raised by `Variable.get` with no default. -/
  | keyError
  /-- The `ValueError` raised by `Variable.setdefault` with a `None` default. -/
  | valueError
  /-- Python `TypeError`, e.g. `json.loads(None)` or `json.dumps` on a
  non-serializable object. -/
  | typeError
  /-- The `json.JSONDecodeError` raised on malformed serialized text. -/
  | jsonDecodeError
deriving DecidableEq, Repr

/-- Modelled from the spec: the `cryptography.fernet` library is not part of
`src/`.  A Fernet token is modelled as a fixed non-empty magic marker
followed by the producing key followed by the plaintext; decryption with a
key succeeds exactly on tokens carrying that key.  Only the spec-level
properties matter: `decrypt (encrypt b) = b` for the same key, a token is
strictly longer than its plaintext, and a wrong-key or garbage token is
rejected (`InvalidToken`). -/
def fernetMagic : Str := ['g', 'A', 'A', 'A', 'A', 'A']

def fernetEnc (key : Str) (b : Str) : Str :=
  fernetMagic ++ key ++ b

def fernetDecOne (key : Str) (t : Str) : Option Str :=
  if (fernetMagic ++ key).isPrefixOf t then
    some (t.drop (fernetMagic ++ key).length)
  else
    none

/-- Modelled from the spec: structural validity of one Fernet key part
("wrong length/encoding for the cipher").  A real Fernet key is 32 bytes
in url-safe base64, i.e. 44 characters; the model keeps the length check. -/
def fernetKeyValid (k : Str) : Bool :=
  k.length == 44

/-- The active encryption capability: either the `NullFernet` stand-in or a
`MultiFernet` holding a non-empty ordered key list (first key encrypts,
any key may decrypt). -/
inductive Fernet where
  | nullFernet
  | multiFernet (k : Str) (ks : List Str)
deriving DecidableEq, Repr

/-- Method `encrypt`: `NullFernet.encrypt` is the identity; `MultiFernet.encrypt`
produces a token under the first key. -/
def Fernet.encrypt : Fernet → Str → Str
  | .nullFernet, b => b
  | .multiFernet k _, b => fernetEnc k b

/-- Attribute `is_encrypted`: class attribute `False` on `NullFernet`; set to `True`
on the `MultiFernet` instance by `get_fernet`. -/
def Fernet.is_encrypted : Fernet → Bool
  | .nullFernet => false
  | .multiFernet _ _ => true

/-- Method `decrypt`.  `NullFernet` defines `decrpyt` (a typo in the source), not
`decrypt`, so calling `decrypt` on it raises `AttributeError`.
`MultiFernet.decrypt` tries each key in order and raises `InvalidToken`
when none accepts the token. -/
def Fernet.decrypt : Fernet → Str → Except PyErr Str
  | .nullFernet, _ => .error .attributeError
  | .multiFernet k ks, t =>
    match (k :: ks).findSome? (fun key => fernetDecOne key t) with
    | some s => .ok s
    | none => .error .invalidToken

/-- The misspelled method the source actually defines on `NullFernet`
(`def decrpyt(self, b): return b`); `MultiFernet` has no such method. -/
def Fernet.decrpyt : Fernet → Str → Except PyErr Str
  | .nullFernet, b => .ok b
  | .multiFernet _ _, _ => .error .attributeError

/-- External runtime environment: whether `cryptography` is importable, and
the configured `[core] FERNET_KEY` value (`[]` models empty/absent). -/
structure Env where
  cryptoAvailable : Bool
  fernetKeyConf : Str
deriving DecidableEq, Repr

/-- Result of a stateful operation: return value, the module-global
`_fernet` cache after the call, and the log messages emitted. -/
structure Eff (α : Type) where
  ret : α
  cache : Option Fernet
  logs : List LogMsg
deriving DecidableEq, Repr

/-- The split `fernet_key.split(',')`: never returns an empty list. -/
def splitOnComma : Str → List Str
  | [] => [[]]
  | c :: rest =>
    let r := splitOnComma rest
    if c = ',' then [] :: r
    else
      match r with
      | [] => [[c]]
      | g :: gs => (c :: g) :: gs

/-- Function `get_fernet()`: deferred, cached resolution of the encryption
capability.  A truthy cached `_fernet` is returned as is.  Otherwise:
missing cryptography → `NullFernet` with a warning; empty key → `NullFernet`
with a warning; key parts all structurally valid → `MultiFernet` over the
comma-separated parts with `is_encrypted = True`; any invalid part →
`ValueError` from the `Fernet` constructor, re-raised as
`AirflowException`, leaving the cache unset.  (The source constructs the
key parts left to right and the first invalid one raises; checking all
parts first is observably the same: the result is the error either way.) -/
def get_fernet (env : Env) (cache : Option Fernet) : Eff (Except PyErr Fernet) :=
  match cache with
  | some f => ⟨.ok f, some f, []⟩
  | none =>
    if env.cryptoAvailable = false then
      ⟨.ok .nullFernet, some .nullFernet, [.warnCryptoNotFound]⟩
    else if env.fernetKeyConf.isEmpty then
      ⟨.ok .nullFernet, some .nullFernet, [.warnEmptyKey]⟩
    else
      match splitOnComma env.fernetKeyConf with
      | [] => ⟨.error .airflowException, none, []⟩
      | k :: ks =>
        if (k :: ks).all fernetKeyValid then
          ⟨.ok (.multiFernet k ks), some (.multiFernet k ks), []⟩
        else
          ⟨.error .airflowException, none, []⟩

/-- The composite attempted inside the `try` block of `get_val`: resolve the
capability, then decrypt with it.  Any raised exception surfaces as
`.error`. -/
def decryptAfterResolve (env : Env) (cache : Option Fernet) (s : Str) :
    Except PyErr Str :=
  match (get_fernet env cache).ret with
  | .ok f => f.decrypt s
  | .error e => .error e

/-- Python values that flow through the store API: `None`, the
JSON-serializable values, and the fresh `object()` sentinel created by
`setdefault` (distinct, by identity, from everything a read can return). -/
inductive PyObj where
  | pyNull
  | pyBool (b : Bool)
  | pyInt (n : Int)
  | pyStr (s : Str)
  | pyList (xs : List PyObj)
  | pyDict (kvs : List (Str × PyObj))
  | pySentinel

/-- The `is None` check. -/
def PyObj.isNull : PyObj → Bool
  | .pyNull => true
  | _ => false

/-- The `is default_sentinel` identity check in `setdefault`. -/
def PyObj.isSentinel : PyObj → Bool
  | .pySentinel => true
  | _ => false

mutual

/-- Whether `json.dumps` accepts the value (everything but the sentinel,
recursively). -/
def serializable1 : PyObj → Bool
  | .pyNull => true
  | .pyBool _ => true
  | .pyInt _ => true
  | .pyStr _ => true
  | .pyList xs => serializableItems xs
  | .pyDict kvs => serializableKvs kvs
  | .pySentinel => false

def serializableItems : List PyObj → Bool
  | [] => true
  | x :: xs => serializable1 x && serializableItems xs

def serializableKvs : List (Str × PyObj) → Bool
  | [] => true
  | (_, v) :: kvs => serializable1 v && serializableKvs kvs

end

/-- Modelled from the spec: the Python `json` module (stdlib, not in `src/`).
The model keeps the contract the spec relies on — serialization of
structured values with a parser that inverts it and rejects malformed
text — using an unambiguous tagged encoding: numbers appear in unary and
strings are length-prefixed, so only injectivity and invertibility of the
encoding are modelled, not the surface syntax of JSON. -/
def strBody (s : Str) : Str :=
  List.replicate s.length '1' ++ ':' :: s

def intBody (n : Int) : Str :=
  if 0 ≤ n then List.replicate n.toNat '1' ++ ['e']
  else '-' :: (List.replicate n.natAbs '1' ++ ['e'])

mutual

def enc1 : PyObj → Str
  | .pyNull => ['z']
  | .pyBool true => ['t']
  | .pyBool false => ['f']
  | .pyInt n => 'i' :: intBody n
  | .pyStr s => 's' :: strBody s
  | .pyList xs => 'l' :: (encItems xs ++ ['e'])
  | .pyDict kvs => 'd' :: (encKvs kvs ++ ['e'])
  | .pySentinel => ['?']

def encItems : List PyObj → Str
  | [] => []
  | x :: xs => enc1 x ++ encItems xs

def encKvs : List (Str × PyObj) → Str
  | [] => []
  | (k, v) :: kvs => ('s' :: strBody k) ++ enc1 v ++ encKvs kvs

end

/-- Count the leading `'1'` digits (unary). -/
def countOnes : Str → Nat × Str
  | [] => (0, [])
  | c :: rest =>
    if c = '1' then
      let r := countOnes rest
      (r.1 + 1, r.2)
    else (0, c :: rest)

/-- Take exactly `n` characters, failing if fewer are available. -/
def takeExact : Nat → Str → Option (Str × Str)
  | 0, s => some ([], s)
  | _ + 1, [] => none
  | n + 1, c :: rest => (takeExact n rest).map (fun p => (c :: p.1, p.2))

def parseStrBody (s : Str) : Option (Str × Str) :=
  let r := countOnes s
  match r.2 with
  | ':' :: r2 => takeExact r.1 r2
  | _ => none

def parseIntBody (s : Str) : Option (Int × Str) :=
  match s with
  | [] => none
  | c :: rest =>
    if c = '-' then
      match countOnes rest with
      | (n, 'e' :: r2) => some (-(n : Int), r2)
      | _ => none
    else
      match countOnes (c :: rest) with
      | (n, 'e' :: r2) => some ((n : Int), r2)
      | _ => none

mutual

def parse1 : Nat → Str → Option (PyObj × Str)
  | 0, _ => none
  | _ + 1, [] => none
  | fuel + 1, c :: rest =>
    if c = 'z' then some (.pyNull, rest)
    else if c = 't' then some (.pyBool true, rest)
    else if c = 'f' then some (.pyBool false, rest)
    else if c = 'i' then (parseIntBody rest).map (fun p => (.pyInt p.1, p.2))
    else if c = 's' then (parseStrBody rest).map (fun p => (.pyStr p.1, p.2))
    else if c = 'l' then (parseItems fuel rest).map (fun p => (.pyList p.1, p.2))
    else if c = 'd' then (parseKvs fuel rest).map (fun p => (.pyDict p.1, p.2))
    else none

def parseItems : Nat → Str → Option (List PyObj × Str)
  | 0, _ => none
  | _ + 1, [] => none
  | fuel + 1, c :: rest =>
    if c = 'e' then some ([], rest)
    else
      match parse1 fuel (c :: rest) with
      | none => none
      | some (x, r1) =>
        match parseItems fuel r1 with
        | none => none
        | some (xs, r2) => some (x :: xs, r2)

def parseKvs : Nat → Str → Option (List (Str × PyObj) × Str)
  | 0, _ => none
  | _ + 1, [] => none
  | fuel + 1, c :: rest =>
    if c = 'e' then some ([], rest)
    else if c = 's' then
      match parseStrBody rest with
      | none => none
      | some (k, r1) =>
        match parse1 fuel r1 with
        | none => none
        | some (v, r2) =>
          match parseKvs fuel r2 with
          | none => none
          | some (kvs, r3) => some ((k, v) :: kvs, r3)
    else none

end

/-- Model of `json.dumps`: rejects non-serializable objects with `TypeError`. -/
def json_dumps (x : PyObj) : Except PyErr Str :=
  if serializable1 x then .ok (enc1 x) else .error .typeError

/-- Model of `json.loads` on a string: parse, requiring the whole input to be
consumed; anything else is a decode error. -/
def json_loads (s : Str) : Except PyErr PyObj :=
  match parse1 (s.length + 1) s with
  | some (x, []) => .ok x
  | _ => .error .jsonDecodeError

/-- Model of `json.loads` as applied to `obj.val`, which can be `None`:
`json.loads(None)` raises `TypeError`. -/
def json_loads_opt : Option Str → Except PyErr PyObj
  | none => .error .typeError
  | some s => json_loads s

/-- Modelled from the spec: the Python `str()` coercion in `Variable.set`
("plain string coercion").  Exact on strings — the only case the store
contract depends on; other values map to their textual encoding. -/
def pyStrOf : PyObj → Str
  | .pyStr s => s
  | .pyNull => ['N', 'o', 'n', 'e']
  | .pyBool true => ['T', 'r', 'u', 'e']
  | .pyBool false => ['F', 'a', 'l', 's', 'e']
  | x => enc1 x

/-- A nullable string result (`get_val`) as the Python value `get`
returns. -/
def optStrToPy : Option Str → PyObj
  | none => .pyNull
  | some s => .pyStr s

/-- A row of the `variable` table: key, raw stored text (`val` column,
nullable — `none` models SQL NULL / Python `None`), and the
`is_encrypted` flag (column default `False`). -/
structure Variable where
  key : Str
  _val : Option Str
  is_encrypted : Bool
deriving DecidableEq, Repr

/-- Python truthiness of `self._val`: false for `None` and for the empty
string. -/
def strTruthy : Option Str → Bool
  | none => false
  | some s => !s.isEmpty

/-- Accessor `Variable.get_val`: if `_val` is truthy and the row is flagged
encrypted, resolve the capability and decrypt inside a `try`;
`InvalidFernetToken` logs "invalid token or value" and any other exception
(including `get_fernet` failing, or `NullFernet` lacking `decrypt`) logs
"FERNET_KEY configuration missing", both returning `None`.  Otherwise
`_val` is returned verbatim. -/
def Variable.get_val (env : Env) (cache : Option Fernet) (v : Variable) :
    Eff (Option Str) :=
  if strTruthy v._val && v.is_encrypted then
    match get_fernet env cache with
    | ⟨.ok f, cache', logs⟩ =>
      match f.decrypt (v._val.getD []) with
      | .ok s => ⟨some s, cache', logs⟩
      | .error .invalidToken => ⟨none, cache', logs ++ [.errInvalidToken v.key]⟩
      | .error _ => ⟨none, cache', logs ++ [.errFernetKeyMissing v.key]⟩
    | ⟨.error _, cache', logs⟩ => ⟨none, cache', logs ++ [.errFernetKeyMissing v.key]⟩
  else
    ⟨v._val, cache, []⟩

/-- Accessor `Variable.set_val`: a falsy (empty) value is a no-op; otherwise the
value is encrypted with the resolved capability (identity under
`NullFernet`) and `is_encrypted` is set from the capability flag.  An
exception from `get_fernet` propagates (there is no `try` here). -/
def Variable.set_val (env : Env) (cache : Option Fernet) (v : Variable)
    (value : Str) : Eff (Except PyErr Variable) :=
  if value.isEmpty then ⟨.ok v, cache, []⟩
  else
    match get_fernet env cache with
    | ⟨.ok f, cache', logs⟩ =>
      ⟨.ok { v with _val := some (f.encrypt value), is_encrypted := f.is_encrypted },
        cache', logs⟩
    | ⟨.error e, cache', logs⟩ => ⟨.error e, cache', logs⟩

/-- The rows of the `variable` table, in insertion order. -/
abbrev Store := List Variable

/-- Lookup `session.query(Variable).filter(Variable.key == key).first()`. -/
def queryFirstByKey (k : Str) (st : Store) : Option Variable :=
  st.find? (fun r => r.key == k)

/-- Deletion `session.query(Variable).filter(Variable.key == key).delete()`. -/
def deleteByKey (k : Str) (st : Store) : Store :=
  st.filter (fun r => !(r.key == k))

/-- All rows currently stored under `k`. -/
def recordsFor (k : Str) (st : Store) : List Variable :=
  st.filter (fun r => r.key == k)

/-- Result of a store-level operation: return value, `_fernet` cache,
emitted logs, and the table contents after commit (unchanged when the
operation raised, since `provide_session` then never commits). -/
structure StEff (α : Type) where
  ret : α
  cache : Option Fernet
  logs : List LogMsg
  store : Store
deriving DecidableEq, Repr

/-- Classmethod `Variable.get`: unique-key lookup; on a miss return `default_var`
unless it is `None`, in which case raise `KeyError`; on a hit return
`obj.val` (i.e. `get_val`), JSON-deserialized when requested — a
deserialization failure propagates. -/
def Variable.get (env : Env) (cache : Option Fernet) (st : Store) (k : Str)
    (default_var : PyObj) (deserialize_json : Bool) : Eff (Except PyErr PyObj) :=
  match queryFirstByKey k st with
  | none =>
    if default_var.isNull then ⟨.error .keyError, cache, []⟩
    else ⟨.ok default_var, cache, []⟩
  | some obj =>
    let r := Variable.get_val env cache obj
    if deserialize_json then ⟨json_loads_opt r.ret, r.cache, r.logs⟩
    else ⟨.ok (optStrToPy r.ret), r.cache, r.logs⟩

/-- Classmethod `Variable.set`: serialize (JSON or `str()` coercion), delete every
existing row with the key, insert a fresh row built by
`Variable(key=key, val=stored_value)` (whose `val=` keyword routes through
`set_val` on a default-initialized row), then flush/commit.  When
construction raises, nothing is committed and the table is unchanged. -/
def Variable.set (env : Env) (cache : Option Fernet) (st : Store) (k : Str)
    (value : PyObj) (serialize_json : Bool) : StEff (Except PyErr Unit) :=
  match (if serialize_json then json_dumps value else .ok (pyStrOf value)) with
  | .error e => ⟨.error e, cache, [], st⟩
  | .ok stored =>
    match Variable.set_val env cache ⟨k, none, false⟩ stored with
    | ⟨.ok rec, cache', logs⟩ => ⟨.ok (), cache', logs, deleteByKey k st ++ [rec]⟩
    | ⟨.error e, cache', logs⟩ => ⟨.error e, cache', logs, st⟩

/-- Classmethod `Variable.setdefault`: read through `get` with a fresh `object()`
sentinel as the default; if the sentinel comes back (key absent), store a
non-`None` default via `set` and return it, or raise `ValueError` for a
`None` default; otherwise return what `get` produced, leaving the table
unchanged. -/
def Variable.setdefault (env : Env) (cache : Option Fernet) (st : Store)
    (k : Str) (default : PyObj) (deserialize_json : Bool) :
    StEff (Except PyErr PyObj) :=
  let g := Variable.get env cache st k .pySentinel deserialize_json
  match g.ret with
  | .error e => ⟨.error e, g.cache, g.logs, st⟩
  | .ok obj =>
    if obj.isSentinel then
      if default.isNull then ⟨.error .valueError, g.cache, g.logs, st⟩
      else
        let s := Variable.set env g.cache st k default deserialize_json
        match s.ret with
        | .ok _ => ⟨.ok default, s.cache, g.logs ++ s.logs, s.store⟩
        | .error e => ⟨.error e, s.cache, g.logs ++ s.logs, st⟩
    else ⟨.ok obj, g.cache, g.logs, st⟩

/-! ### Lemmas about the serialization model -/

theorem countOnes_replicate (n : Nat) (c : Char) (t : Str) (h : ¬ c = '1') :
    countOnes (List.replicate n '1' ++ c :: t) = (n, c :: t) := by
  induction n with
  | zero => simp [countOnes, h]
  | succ n ih => simp [List.replicate_succ, countOnes, ih]

theorem takeExact_append (s t : Str) : takeExact s.length (s ++ t) = some (s, t) := by
  induction s with
  | nil => simp [takeExact]
  | cons c cs ih => simp [takeExact, ih]

theorem parseStrBody_strBody (s t : Str) : parseStrBody (strBody s ++ t) = some (s, t) := by
  have h1 : strBody s ++ t = List.replicate s.length '1' ++ (':' :: (s ++ t)) := by
    simp [strBody]
  simp only [parseStrBody, h1, countOnes_replicate s.length ':' (s ++ t) (by decide)]
  simp [takeExact_append]

theorem parseIntBody_replicate (k : Nat) (rest : Str) :
    parseIntBody (List.replicate k '1' ++ 'e' :: rest) = some ((k : Int), rest) := by
  cases k with
  | zero => simp [parseIntBody, countOnes]
  | succ n =>
    have h2 := countOnes_replicate (n + 1) 'e' rest (by decide)
    simp only [List.replicate_succ, List.cons_append] at h2 ⊢
    simp [parseIntBody, h2]

theorem parseIntBody_intBody (n : Int) (rest : Str) :
    parseIntBody (intBody n ++ rest) = some (n, rest) := by
  by_cases hn : 0 ≤ n
  · rw [intBody, if_pos hn]
    have h1 : (List.replicate n.toNat '1' ++ ['e']) ++ rest
        = List.replicate n.toNat '1' ++ 'e' :: rest := by simp
    rw [h1, parseIntBody_replicate]
    simp [Int.toNat_of_nonneg hn]
  · rw [intBody, if_neg hn]
    have h1 : ('-' :: (List.replicate n.natAbs '1' ++ ['e'])) ++ rest
        = '-' :: (List.replicate n.natAbs '1' ++ 'e' :: rest) := by simp
    rw [h1]
    simp only [parseIntBody, if_pos rfl,
      countOnes_replicate n.natAbs 'e' rest (by decide)]
    simp [abs_of_nonpos (show (n : Int) ≤ 0 by omega)]

theorem enc1_head (x : PyObj) : ∃ c cs, enc1 x = c :: cs ∧ ¬ c = 'e' := by
  cases x with
  | pyNull => exact ⟨'z', [], by simp [enc1], by decide⟩
  | pyBool b =>
    cases b with
    | true => exact ⟨'t', [], by simp [enc1], by decide⟩
    | false => exact ⟨'f', [], by simp [enc1], by decide⟩
  | pyInt n => exact ⟨'i', intBody n, by simp [enc1], by decide⟩
  | pyStr s => exact ⟨'s', strBody s, by simp [enc1], by decide⟩
  | pyList xs => exact ⟨'l', encItems xs ++ ['e'], by simp [enc1], by decide⟩
  | pyDict kvs => exact ⟨'d', encKvs kvs ++ ['e'], by simp [enc1], by decide⟩
  | pySentinel => exact ⟨'?', [], by simp [enc1], by decide⟩

theorem enc1_length_pos (x : PyObj) : 1 ≤ (enc1 x).length := by
  obtain ⟨c, cs, h, _⟩ := enc1_head x
  simp [h]

theorem parse_enc (fuel : Nat) :
    (∀ x rest, serializable1 x = true → (enc1 x).length < fuel →
      parse1 fuel (enc1 x ++ rest) = some (x, rest)) ∧
    (∀ xs rest, serializableItems xs = true → (encItems xs).length + 1 < fuel →
      parseItems fuel (encItems xs ++ 'e' :: rest) = some (xs, rest)) ∧
    (∀ kvs rest, serializableKvs kvs = true → (encKvs kvs).length + 1 < fuel →
      parseKvs fuel (encKvs kvs ++ 'e' :: rest) = some (kvs, rest)) := by
  induction fuel with
  | zero => refine ⟨?_, ?_, ?_⟩ <;> intro a rest hs hl <;> omega
  | succ fuel ih =>
    obtain ⟨ih1, ih2, ih3⟩ := ih
    refine ⟨?_, ?_, ?_⟩
    · intro x rest hs hl
      cases x with
      | pyNull => simp [enc1, parse1]
      | pyBool b => cases b <;> simp [enc1, parse1]
      | pyInt n =>
        have hshape : enc1 (.pyInt n) ++ rest = 'i' :: (intBody n ++ rest) := by
          simp [enc1]
        rw [hshape]
        simp [parse1, parseIntBody_intBody]
      | pyStr s =>
        have hshape : enc1 (.pyStr s) ++ rest = 's' :: (strBody s ++ rest) := by
          simp [enc1]
        rw [hshape]
        simp [parse1, parseStrBody_strBody]
      | pyList xs =>
        have hs' : serializableItems xs = true := by simpa [serializable1] using hs
        have hl' : (encItems xs).length + 1 < fuel := by
          simp [enc1] at hl; omega
        have hshape : enc1 (.pyList xs) ++ rest = 'l' :: (encItems xs ++ 'e' :: rest) := by
          simp [enc1]
        rw [hshape]
        simp [parse1, ih2 xs rest hs' hl']
      | pyDict kvs =>
        have hs' : serializableKvs kvs = true := by simpa [serializable1] using hs
        have hl' : (encKvs kvs).length + 1 < fuel := by
          simp [enc1] at hl; omega
        have hshape : enc1 (.pyDict kvs) ++ rest = 'd' :: (encKvs kvs ++ 'e' :: rest) := by
          simp [enc1]
        rw [hshape]
        simp [parse1, ih3 kvs rest hs' hl']
      | pySentinel => simp [serializable1] at hs
    · intro xs rest hs hl
      cases xs with
      | nil => simp [encItems, parseItems]
      | cons x xs =>
        have hs1 : serializable1 x = true := by
          simp [serializableItems, Bool.and_eq_true] at hs; exact hs.1
        have hs2 : serializableItems xs = true := by
          simp [serializableItems, Bool.and_eq_true] at hs; exact hs.2
        have e1pos := enc1_length_pos x
        have hl1 : (enc1 x).length < fuel := by
          simp [encItems] at hl; omega
        have hl2 : (encItems xs).length + 1 < fuel := by
          simp [encItems] at hl; omega
        obtain ⟨c, cs, hc, hce⟩ := enc1_head x
        have hshape : encItems (x :: xs) ++ 'e' :: rest
            = c :: (cs ++ (encItems xs ++ 'e' :: rest)) := by
          simp [encItems, hc]
        have hp1 : parse1 fuel (c :: (cs ++ (encItems xs ++ 'e' :: rest)))
            = some (x, encItems xs ++ 'e' :: rest) := by
          have h := ih1 x (encItems xs ++ 'e' :: rest) hs1 hl1
          rw [hc] at h
          simpa using h
        rw [hshape]
        simp only [parseItems, if_neg hce, hp1, ih2 xs rest hs2 hl2]
    · intro kvs rest hs hl
      cases kvs with
      | nil => simp [encKvs, parseKvs]
      | cons kv kvs =>
        obtain ⟨k, v⟩ := kv
        have hs1 : serializable1 v = true := by
          simp [serializableKvs, Bool.and_eq_true] at hs; exact hs.1
        have hs2 : serializableKvs kvs = true := by
          simp [serializableKvs, Bool.and_eq_true] at hs; exact hs.2
        have e1pos := enc1_length_pos v
        have hl1 : (enc1 v).length < fuel := by
          simp [encKvs] at hl; omega
        have hl2 : (encKvs kvs).length + 1 < fuel := by
          simp [encKvs] at hl; omega
        have hshape : encKvs ((k, v) :: kvs) ++ 'e' :: rest
            = 's' :: (strBody k ++ (enc1 v ++ (encKvs kvs ++ 'e' :: rest))) := by
          simp [encKvs]
        have hp1 : parse1 fuel (enc1 v ++ (encKvs kvs ++ 'e' :: rest))
            = some (v, encKvs kvs ++ 'e' :: rest) := ih1 v _ hs1 hl1
        rw [hshape]
        simp only [parseKvs, parseStrBody_strBody, hp1, ih2, ih3 kvs rest hs2 hl2]
        simp

theorem json_loads_dumps (x : PyObj) (hs : serializable1 x = true) :
    json_loads (enc1 x) = .ok x := by
  have h := (parse_enc ((enc1 x).length + 1)).1 x [] hs (by omega)
  rw [List.append_nil] at h
  simp [json_loads, h]

/-! ### Lemmas about the cipher model and the resolution cache -/

theorem fernetDecOne_enc (k b : Str) : fernetDecOne k (fernetEnc k b) = some b := by
  have h1 : fernetEnc k b = (fernetMagic ++ k) ++ b := by
    simp [fernetEnc]
  rw [fernetDecOne, h1]
  rw [if_pos (by rw [List.isPrefixOf_iff_prefix]; exact List.prefix_append _ _)]
  rw [List.drop_left]

theorem multiFernet_decrypt_encrypt (k : Str) (ks : List Str) (b : Str) :
    Fernet.decrypt (.multiFernet k ks) (Fernet.encrypt (.multiFernet k ks) b) = .ok b := by
  simp [Fernet.decrypt, Fernet.encrypt, List.findSome?_cons, fernetDecOne_enc]

theorem fernetEnc_length (k b : Str) :
    (fernetEnc k b).length = 6 + k.length + b.length := by
  simp [fernetEnc, fernetMagic]
  omega

theorem fernetEnc_ne (k b : Str) : fernetEnc k b ≠ b := by
  intro h
  have := congrArg List.length h
  rw [fernetEnc_length] at this
  omega

theorem fernetEnc_not_isEmpty (k b : Str) : (fernetEnc k b).isEmpty = false := by
  rw [List.isEmpty_eq_false_iff_exists_mem]
  exact ⟨'g', by simp [fernetEnc, fernetMagic]⟩

theorem get_fernet_ok_cache (env : Env) (c : Option Fernet) (f : Fernet)
    (h : (get_fernet env c).ret = .ok f) : (get_fernet env c).cache = some f := by
  match c with
  | some f' =>
    simp [get_fernet] at h ⊢
    exact h
  | none =>
    rw [get_fernet] at h ⊢
    split at h
    · simp_all
    · split at h
      · simp_all
      · split at h
        · simp_all
        · split at h
          · simp_all
          · simp_all

theorem get_fernet_cached (env : Env) (f : Fernet) :
    get_fernet env (some f) = ⟨.ok f, some f, []⟩ := rfl

/-! ### Lemmas about the row store -/

theorem queryFirst_delete_append (k : Str) (r : Variable) (st : Store)
    (h : r.key = k) : queryFirstByKey k (deleteByKey k st ++ [r]) = some r := by
  induction st with
  | nil => simp [queryFirstByKey, deleteByKey, List.find?, h]
  | cons v vs ih =>
    by_cases hv : v.key = k
    · simpa [deleteByKey, hv] using ih
    · have hb : (v.key == k) = false := by
        simpa using hv
      simp only [deleteByKey, List.filter_cons, hb] at ih ⊢
      simpa [queryFirstByKey, List.find?_cons, hb] using ih

theorem recordsFor_delete_append (k : Str) (r : Variable) (st : Store)
    (h : r.key = k) : recordsFor k (deleteByKey k st ++ [r]) = [r] := by
  induction st with
  | nil => simp [recordsFor, deleteByKey, List.filter_cons, h]
  | cons v vs ih =>
    by_cases hv : v.key = k
    · simpa [deleteByKey, hv] using ih
    · have hb : (v.key == k) = false := by
        simpa using hv
      simp only [deleteByKey, List.filter_cons, hb] at ih ⊢
      simpa [recordsFor, List.filter_cons, hb] using ih

/-- Writing a non-empty value through `set_val` with a resolvable
capability yields a row whose `get_val` gives the value back: the
write/read round trip behind `set`/`get`. -/
theorem set_get_val_roundtrip (env : Env) (cache : Option Fernet) (k value : Str)
    (f : Fernet) (hf : (get_fernet env cache).ret = .ok f) (hv : ¬ value = []) :
    ∃ rec, (Variable.set_val env cache ⟨k, none, false⟩ value).ret = .ok rec ∧
      rec.key = k ∧ rec.is_encrypted = f.is_encrypted ∧
      rec._val = some (f.encrypt value) ∧
      (Variable.get_val env (Variable.set_val env cache ⟨k, none, false⟩ value).cache
        rec).ret = some value := by
  have hcache := get_fernet_ok_cache env cache f hf
  have hemp : value.isEmpty = false := by
    simpa [List.isEmpty_iff] using hv
  have heff : get_fernet env cache = ⟨.ok f, some f, (get_fernet env cache).logs⟩ := by
    cases hg : get_fernet env cache with
    | mk r c l =>
      rw [hg] at hf hcache
      simp at hf hcache
      simp [hf, hcache]
  refine ⟨⟨k, some (f.encrypt value), f.is_encrypted⟩, ?_, rfl, rfl, rfl, ?_⟩
  · rw [Variable.set_val, if_neg (by simp [hemp]), heff]
  · rw [Variable.set_val, if_neg (by simp [hemp]), heff]
    cases f with
    | nullFernet =>
      simp [Variable.get_val, strTruthy, Fernet.is_encrypted, Fernet.encrypt, hemp]
    | multiFernet k0 ks =>
      rw [Variable.get_val]
      rw [if_pos (by simp [strTruthy, Fernet.is_encrypted, Fernet.encrypt,
        fernetEnc_not_isEmpty])]
      simp [get_fernet_cached, multiFernet_decrypt_encrypt]

theorem get_fernet_error_cache (env : Env) (c : Option Fernet) (e : PyErr)
    (h : (get_fernet env c).ret = .error e) : (get_fernet env c).cache = none := by
  match c with
  | some f' => simp [get_fernet] at h
  | none =>
    by_cases h1 : env.cryptoAvailable = false
    · simp [get_fernet, h1] at h
    · by_cases h2 : env.fernetKeyConf.isEmpty = true
      · simp [get_fernet, h1, h2] at h
      · cases hsp : splitOnComma env.fernetKeyConf with
        | nil => simp [get_fernet, h1, h2, hsp]
        | cons p ps =>
          by_cases h3 : (p :: ps).all fernetKeyValid = true
          · simp [get_fernet, h1, h2, hsp, h3] at h
          · simp [get_fernet, h1, h2, hsp, h3]

theorem set_val_ok_key (env : Env) (cache : Option Fernet) (v : Variable)
    (value : Str) (rec : Variable)
    (h : (Variable.set_val env cache v value).ret = .ok rec) : rec.key = v.key := by
  rw [Variable.set_val] at h
  split at h
  · simp at h
    simp [h]
  · cases hg : get_fernet env cache with
    | mk r c l =>
      rw [hg] at h
      cases r with
      | ok f =>
        simp at h
        simp [h.symm]
      | error e => simp at h

/-! ### Claims -/

/-- C1 (code bug in the source): on `NullFernet`, `encrypt` is the
identity, but the decryption method is misspelled `decrpyt`, so `decrypt`
— the name the claim, the rest of the code, and the docstring of the class
("presents a similar interface to Fernet") rely on — raises
`AttributeError` instead of returning its argument.  Evaluated at the
failing input `b = "v"`. -/
theorem c1_nullfernet_decrypt_misspelled :
    Fernet.encrypt .nullFernet ['v'] = ['v'] ∧
    Fernet.decrpyt .nullFernet ['v'] = .ok ['v'] ∧
    Fernet.decrypt .nullFernet ['v'] = .error .attributeError :=
  ⟨rfl, rfl, rfl⟩

/-- C2: a row flagged encrypted, with a truthy stored value that the
resolve-then-decrypt path cannot decrypt, makes `get_val` return `None`
and log an error-level message; the failure never propagates to the
caller. -/
theorem c2_get_val_decrypt_failure (env : Env) (cache : Option Fernet)
    (rec : Variable) (h1 : rec.is_encrypted = true)
    (h2 : strTruthy rec._val = true)
    (h3 : ∃ e, decryptAfterResolve env cache (rec._val.getD []) = .error e) :
    (Variable.get_val env cache rec).ret = none ∧
    ∃ m, m ∈ (Variable.get_val env cache rec).logs ∧ m.level = .error := by
  obtain ⟨e, he⟩ := h3
  rw [decryptAfterResolve] at he
  rw [Variable.get_val, if_pos (by simp [h1, h2])]
  cases hg : get_fernet env cache with
  | mk r c l =>
    rw [hg] at he
    cases r with
    | ok f =>
      simp only at he
      cases e
      case invalidToken =>
        exact ⟨by simp [he], .errInvalidToken rec.key, by simp [he], rfl⟩
      all_goals exact ⟨by simp [he], .errFernetKeyMissing rec.key, by simp [he], rfl⟩
    | error e0 =>
      exact ⟨by simp, .errFernetKeyMissing rec.key, by simp, rfl⟩

/-- C3: with cryptography available, non-empty but structurally invalid
key material makes `get_fernet` fail with the configuration error — not
resolve to `NullFernet`, and cache nothing — while empty/absent key
material resolves to `NullFernet` with a warning and no error. -/
theorem c3_get_fernet_invalid_vs_empty (env : Env)
    (hc : env.cryptoAvailable = true) :
    (¬ env.fernetKeyConf = [] →
      ¬ (splitOnComma env.fernetKeyConf).all fernetKeyValid = true →
      get_fernet env none = ⟨.error .airflowException, none, []⟩) ∧
    (env.fernetKeyConf = [] →
      get_fernet env none = ⟨.ok .nullFernet, some .nullFernet, [.warnEmptyKey]⟩) := by
  constructor
  · intro hne hinv
    rw [get_fernet, if_neg (by simp [hc]),
      if_neg (by simpa [List.isEmpty_iff] using hne)]
    cases hsp : splitOnComma env.fernetKeyConf with
    | nil => rfl
    | cons p ps =>
      rw [hsp] at hinv
      simp only [if_neg hinv]
  · intro he
    rw [get_fernet, if_neg (by simp [hc]), if_pos (by simp [he])]

/-- C9 (implicit): a failed resolution leaves the module-level cache unset,
so the next call re-runs the whole algorithm; only a successful resolution
is cached, and later calls return the cached instance unchanged. -/
theorem c9_resolution_caching (env : Env) :
    (∀ e c l, get_fernet env none = ⟨.error e, c, l⟩ → c = none) ∧
    (∀ f c l, get_fernet env none = ⟨.ok f, c, l⟩ →
      c = some f ∧ get_fernet env c = ⟨.ok f, some f, []⟩) := by
  constructor
  · intro e c l h
    have h1 : (get_fernet env none).ret = .error e := by rw [h]
    have h2 := get_fernet_error_cache env none e h1
    rw [h] at h2
    exact h2
  · intro f c l h
    have h1 : (get_fernet env none).ret = .ok f := by rw [h]
    have h2 := get_fernet_ok_cache env none f h1
    rw [h] at h2
    simp only at h2
    subst h2
    exact ⟨rfl, get_fernet_cached env f⟩

/-- C10 (implicit): when a row exists for the key but `get_val` has
degraded a decryption failure to `None`, the JSON-deserializing `get`
applies `json.loads` to `None` and raises `TypeError` to the caller rather
than returning `None`. -/
theorem c10_deserialize_after_decrypt_failure (env : Env)
    (cache : Option Fernet) (st : Store) (k : Str) (rec : Variable)
    (h1 : queryFirstByKey k st = some rec)
    (h2 : (Variable.get_val env cache rec).ret = none) :
    (Variable.get env cache st k .pyNull true).ret = .error .typeError := by
  rw [Variable.get, h1]
  simp [h2, json_loads_opt]

/-- C5: `get` on an absent key returns a non-`None` default and raises
`KeyError` without one; on a present key it returns the per-row `get_val`
result, JSON-deserialized when requested. -/
theorem c5_get_default_and_found (env : Env) (cache : Option Fernet)
    (st : Store) (k : Str) (d : PyObj) :
    (queryFirstByKey k st = none → ¬ d.isNull = true →
      Variable.get env cache st k d false = ⟨.ok d, cache, []⟩) ∧
    (queryFirstByKey k st = none →
      (Variable.get env cache st k .pyNull false).ret = .error .keyError) ∧
    (∀ rec, queryFirstByKey k st = some rec →
      (Variable.get env cache st k d false).ret
        = .ok (optStrToPy (Variable.get_val env cache rec).ret) ∧
      (Variable.get env cache st k d true).ret
        = json_loads_opt (Variable.get_val env cache rec).ret) := by
  refine ⟨?_, ?_, ?_⟩
  · intro h hn
    rw [Variable.get, h, if_neg hn]
  · intro h
    rw [Variable.get, h]
    rfl
  · intro rec h
    constructor
    · rw [Variable.get, h]
      simp
    · rw [Variable.get, h]
      simp

/-- C7: a successful `set` serializes the value, removes every existing
row with the key, and appends the one fresh row built from that
serialization, so the store holds exactly one row for the key. -/
theorem c7_set_delete_insert (env : Env) (cache : Option Fernet) (st : Store)
    (k : Str) (value : PyObj) (sj : Bool)
    (h : (Variable.set env cache st k value sj).ret = .ok ()) :
    ∃ stored rec,
      (if sj then json_dumps value else .ok (pyStrOf value)) = .ok stored ∧
      (Variable.set_val env cache ⟨k, none, false⟩ stored).ret = .ok rec ∧
      rec.key = k ∧
      (Variable.set env cache st k value sj).store = deleteByKey k st ++ [rec] ∧
      recordsFor k (Variable.set env cache st k value sj).store = [rec] := by
  cases hser : (if sj then json_dumps value else .ok (pyStrOf value)) with
  | error e =>
    rw [Variable.set, hser] at h
    simp at h
  | ok stored =>
    cases hsv : Variable.set_val env cache ⟨k, none, false⟩ stored with
    | mk r c l =>
      cases r with
      | error e =>
        rw [Variable.set, hser] at h
        simp only [hsv] at h
        simp at h
      | ok rec =>
        have hkey : rec.key = k := by
          have h2 := set_val_ok_key env cache ⟨k, none, false⟩ stored rec
            (by rw [hsv])
          simpa using h2
        refine ⟨stored, rec, rfl, by rw [hsv], hkey, ?_, ?_⟩
        · rw [Variable.set, hser]
          simp [hsv]
        · rw [Variable.set, hser]
          simp only [hsv]
          exact recordsFor_delete_append k rec st hkey

/-- A successful serialization plus a resolvable capability makes `set`
succeed, replacing the rows under the key with one fresh row whose `get_val`
returns the serialized text. -/
theorem set_ok_eq (env : Env) (st : Store) (k : Str) (value : PyObj)
    (sj : Bool) (stored : Str) (f : Fernet)
    (hser : (if sj then json_dumps value else .ok (pyStrOf value)) = .ok stored)
    (hf : (get_fernet env none).ret = .ok f) (hv : ¬ stored = []) :
    ∃ rec,
      Variable.set env none st k value sj
        = ⟨.ok (), (Variable.set_val env none ⟨k, none, false⟩ stored).cache,
            (Variable.set_val env none ⟨k, none, false⟩ stored).logs,
            deleteByKey k st ++ [rec]⟩ ∧
      (Variable.set_val env none ⟨k, none, false⟩ stored).ret = .ok rec ∧
      rec.key = k ∧ rec.is_encrypted = f.is_encrypted ∧
      rec._val = some (f.encrypt stored) ∧
      (Variable.get_val env
        (Variable.set_val env none ⟨k, none, false⟩ stored).cache rec).ret
        = some stored := by
  obtain ⟨rec, hret, hkey, henc, hval, hget⟩ :=
    set_get_val_roundtrip env none k stored f hf hv
  refine ⟨rec, ?_, hret, hkey, henc, hval, hget⟩
  cases hsv : Variable.set_val env none ⟨k, none, false⟩ stored with
  | mk r c l =>
    rw [hsv] at hret
    simp only at hret
    subst hret
    rw [Variable.set, hser]
    simp [hsv]

theorem enc1_ne_nil (x : PyObj) : ¬ enc1 x = [] := by
  have h := enc1_length_pos x
  intro he
  rw [he] at h
  simp at h

/-- C4: after `set(k, v)` with a non-empty string `v`: when resolution
yields `NullFernet`, the stored row is tagged unencrypted and `get_val`
returns `v` verbatim; when it yields a real `MultiFernet`, the row is
tagged encrypted and the raw stored text differs from `v`. -/
theorem c4_set_tagging (env : Env) (st : Store) (k v : Str) (hv : ¬ v = []) :
    ((get_fernet env none).ret = .ok .nullFernet →
      ∃ rec, (Variable.set env none st k (.pyStr v) false).ret = .ok () ∧
        (Variable.set env none st k (.pyStr v) false).store
          = deleteByKey k st ++ [rec] ∧
        rec.is_encrypted = false ∧
        (Variable.get_val env (Variable.set env none st k (.pyStr v) false).cache
          rec).ret = some v) ∧
    (∀ k0 ks, (get_fernet env none).ret = .ok (.multiFernet k0 ks) →
      ∃ rec, (Variable.set env none st k (.pyStr v) false).ret = .ok () ∧
        (Variable.set env none st k (.pyStr v) false).store
          = deleteByKey k st ++ [rec] ∧
        rec.is_encrypted = true ∧ ¬ rec._val = some v) := by
  constructor
  · intro hf
    obtain ⟨rec, hset, hret, hkey, henc, hval, hget⟩ :=
      set_ok_eq env st k (.pyStr v) false v .nullFernet rfl hf hv
    refine ⟨rec, ?_, ?_, ?_, ?_⟩
    · rw [hset]
    · rw [hset]
    · rw [henc]
      rfl
    · rw [hset]
      exact hget
  · intro k0 ks hf
    obtain ⟨rec, hset, hret, hkey, henc, hval, hget⟩ :=
      set_ok_eq env st k (.pyStr v) false v (.multiFernet k0 ks) rfl hf hv
    refine ⟨rec, ?_, ?_, ?_, ?_⟩
    · rw [hset]
    · rw [hset]
    · rw [henc]
      rfl
    · rw [hval]
      intro hcontra
      simp only [Option.some.injEq] at hcontra
      exact fernetEnc_ne k0 v (by simpa [Fernet.encrypt] using hcontra)

/-- C6 (amended): restricted to a non-empty default.  `setdefault` on an
absent key raises `ValueError` for a `None` default without touching the
store, and stores-then-returns a non-`None`, non-empty default via `set`;
on the now-present key, a second `setdefault` with a different default
returns the originally stored value and leaves the store unchanged — the
internal sentinel keeps "stored value" and "absent key" distinguishable.
The restriction is forced: an empty default is falsy, so `set_val` no-ops
and the inserted row holds a NULL value, which the second `setdefault`
reads back as `None` instead of the original default (see the
counterexample below). -/
theorem c6_setdefault (env : Env) (st : Store) (k s other : Str) (f : Fernet)
    (habs : queryFirstByKey k st = none) (hs : ¬ s = [])
    (hf : (get_fernet env none).ret = .ok f) :
    (Variable.setdefault env none st k .pyNull false).ret = .error .valueError ∧
    (Variable.setdefault env none st k .pyNull false).store = st ∧
    (Variable.setdefault env none st k (.pyStr s) false).ret = .ok (.pyStr s) ∧
    (Variable.setdefault env none st k (.pyStr s) false).store
      = (Variable.set env none st k (.pyStr s) false).store ∧
    (Variable.setdefault env
        (Variable.setdefault env none st k (.pyStr s) false).cache
        (Variable.setdefault env none st k (.pyStr s) false).store
        k (.pyStr other) false).ret = .ok (.pyStr s) ∧
    (Variable.setdefault env
        (Variable.setdefault env none st k (.pyStr s) false).cache
        (Variable.setdefault env none st k (.pyStr s) false).store
        k (.pyStr other) false).store
      = (Variable.setdefault env none st k (.pyStr s) false).store := by
  obtain ⟨rec, hset, hret, hkey, henc, hval, hget⟩ :=
    set_ok_eq env st k (.pyStr s) false s f rfl hf hs
  have hg : Variable.get env none st k .pySentinel false = ⟨.ok .pySentinel, none, []⟩ := by
    rw [Variable.get, habs]
    rfl
  have hsd1 : Variable.setdefault env none st k (.pyStr s) false
      = ⟨.ok (.pyStr s), (Variable.set_val env none ⟨k, none, false⟩ s).cache,
          (Variable.set_val env none ⟨k, none, false⟩ s).logs,
          deleteByKey k st ++ [rec]⟩ := by
    rw [Variable.setdefault, hg]
    simp [hset, PyObj.isSentinel, PyObj.isNull]
  have hnull : Variable.setdefault env none st k .pyNull false
      = ⟨.error .valueError, none, [], st⟩ := by
    rw [Variable.setdefault, hg]
    simp [PyObj.isSentinel, PyObj.isNull]
  have hq1 : queryFirstByKey k (deleteByKey k st ++ [rec]) = some rec :=
    queryFirst_delete_append k rec st hkey
  have hsd2ret : (Variable.setdefault env
      (Variable.set_val env none ⟨k, none, false⟩ s).cache
      (deleteByKey k st ++ [rec]) k (.pyStr other) false).ret = .ok (.pyStr s) ∧
      (Variable.setdefault env
        (Variable.set_val env none ⟨k, none, false⟩ s).cache
        (deleteByKey k st ++ [rec]) k (.pyStr other) false).store
        = deleteByKey k st ++ [rec] := by
    rw [Variable.setdefault, Variable.get, hq1]
    constructor
    · simp [hget, PyObj.isSentinel, optStrToPy]
    · simp [hget, PyObj.isSentinel, optStrToPy]
  refine ⟨by rw [hnull], by rw [hnull], by rw [hsd1], ?_, ?_, ?_⟩
  · rw [hsd1, hset]
  · rw [hsd1]
    exact hsd2ret.1
  · rw [hsd1]
    exact hsd2ret.2

/-- C8: for a JSON-serializable value, `set` with serialization followed
by `get` with deserialization returns the value itself (when the
capability resolves); and when the stored text fails to deserialize, the
deserializing `get` propagates the parse error to the caller. -/
theorem c8_json_roundtrip (env : Env) (st : Store) (k : Str) (x : PyObj)
    (f : Fernet) (hx : serializable1 x = true)
    (hf : (get_fernet env none).ret = .ok f) :
    ((Variable.set env none st k x true).ret = .ok () ∧
      (Variable.get env (Variable.set env none st k x true).cache
        (Variable.set env none st k x true).store k .pyNull true).ret = .ok x) ∧
    (∀ cache2 rec st2 e, queryFirstByKey k st2 = some rec →
      json_loads_opt (Variable.get_val env cache2 rec).ret = .error e →
      (Variable.get env cache2 st2 k .pyNull true).ret = .error e) := by
  have hser : (if true then json_dumps x else .ok (pyStrOf x)) = .ok (enc1 x) := by
    simp [json_dumps, hx]
  obtain ⟨rec, hset, hret, hkey, henc, hval, hget⟩ :=
    set_ok_eq env st k x true (enc1 x) f hser hf (enc1_ne_nil x)
  constructor
  · constructor
    · rw [hset]
    · rw [hset]
      have hq1 : queryFirstByKey k (deleteByKey k st ++ [rec]) = some rec :=
        queryFirst_delete_append k rec st hkey
      rw [Variable.get, hq1]
      simp [hget, json_loads_opt, json_loads_dumps x hx]
  · intro cache2 rec2 st2 e h1 h2
    rw [Variable.get, h1]
    simpa using h2

/-- Witness for C2: a garbage ciphertext under a valid 44-character key
fails with `InvalidToken`, and `get_val` degrades it to `none` with an
error log. -/
theorem c2_witness :
    (⟨['k'], some ['x'], true⟩ : Variable).is_encrypted = true ∧
    strTruthy (⟨['k'], some ['x'], true⟩ : Variable)._val = true ∧
    (∃ e, decryptAfterResolve ⟨true, List.replicate 44 'a'⟩ none
        ((⟨['k'], some ['x'], true⟩ : Variable)._val.getD []) = .error e) ∧
    ((Variable.get_val ⟨true, List.replicate 44 'a'⟩ none
        ⟨['k'], some ['x'], true⟩).ret = none ∧
      ∃ m, m ∈ (Variable.get_val ⟨true, List.replicate 44 'a'⟩ none
        ⟨['k'], some ['x'], true⟩).logs ∧ m.level = .error) :=
  ⟨rfl, rfl, ⟨.invalidToken, rfl⟩,
    c2_get_val_decrypt_failure ⟨true, List.replicate 44 'a'⟩ none
      ⟨['k'], some ['x'], true⟩ rfl rfl ⟨.invalidToken, rfl⟩⟩

/-- Witness for C3: a 1-character key is structurally invalid and fails
resolution; an empty key resolves to `NullFernet` with a warning. -/
theorem c3_witness :
    (¬ (⟨true, ['x']⟩ : Env).fernetKeyConf = []) ∧
    (¬ (splitOnComma (⟨true, ['x']⟩ : Env).fernetKeyConf).all fernetKeyValid = true) ∧
    get_fernet ⟨true, ['x']⟩ none = ⟨.error .airflowException, none, []⟩ ∧
    get_fernet ⟨true, []⟩ none
      = ⟨.ok .nullFernet, some .nullFernet, [.warnEmptyKey]⟩ :=
  ⟨by decide, by decide,
    (c3_get_fernet_invalid_vs_empty ⟨true, ['x']⟩ rfl).1 (by decide) (by decide),
    (c3_get_fernet_invalid_vs_empty ⟨true, []⟩ rfl).2 rfl⟩

/-- Witness for C4: writing `"v"` under no cipher and under a valid
44-character key. -/
theorem c4_witness :
    (¬ (['v'] : Str) = []) ∧
    (get_fernet ⟨false, []⟩ none).ret = .ok .nullFernet ∧
    (get_fernet ⟨true, List.replicate 44 'a'⟩ none).ret
      = .ok (.multiFernet (List.replicate 44 'a') []) ∧
    (∃ rec, (Variable.set ⟨false, []⟩ none [] ['k'] (.pyStr ['v']) false).ret = .ok () ∧
      (Variable.set ⟨false, []⟩ none [] ['k'] (.pyStr ['v']) false).store
        = deleteByKey ['k'] [] ++ [rec] ∧
      rec.is_encrypted = false ∧
      (Variable.get_val ⟨false, []⟩
        (Variable.set ⟨false, []⟩ none [] ['k'] (.pyStr ['v']) false).cache rec).ret
        = some ['v']) ∧
    (∃ rec, (Variable.set ⟨true, List.replicate 44 'a'⟩ none [] ['k']
        (.pyStr ['v']) false).ret = .ok () ∧
      (Variable.set ⟨true, List.replicate 44 'a'⟩ none [] ['k']
        (.pyStr ['v']) false).store = deleteByKey ['k'] [] ++ [rec] ∧
      rec.is_encrypted = true ∧ ¬ rec._val = some ['v']) :=
  ⟨by decide, rfl, rfl,
    (c4_set_tagging ⟨false, []⟩ [] ['k'] ['v'] (by decide)).1 rfl,
    (c4_set_tagging ⟨true, List.replicate 44 'a'⟩ [] ['k'] ['v'] (by decide)).2
      (List.replicate 44 'a') [] rfl⟩

/-- Witness for C5: a miss with and without a default, and a hit read both
plainly and deserializing. -/
theorem c5_witness :
    queryFirstByKey ['m'] ([] : Store) = none ∧
    (¬ (PyObj.pyStr ['x']).isNull = true) ∧
    Variable.get ⟨false, []⟩ none [] ['m'] (.pyStr ['x']) false
      = ⟨.ok (.pyStr ['x']), none, []⟩ ∧
    (Variable.get ⟨false, []⟩ none [] ['m'] .pyNull false).ret = .error .keyError ∧
    queryFirstByKey ['k'] [⟨['k'], some ['v'], false⟩]
      = some ⟨['k'], some ['v'], false⟩ ∧
    (Variable.get ⟨false, []⟩ none [⟨['k'], some ['v'], false⟩] ['k']
        (.pyStr ['x']) false).ret
      = .ok (optStrToPy (Variable.get_val ⟨false, []⟩ none
          ⟨['k'], some ['v'], false⟩).ret) ∧
    (Variable.get ⟨false, []⟩ none [⟨['k'], some ['v'], false⟩] ['k']
        (.pyStr ['x']) true).ret
      = json_loads_opt (Variable.get_val ⟨false, []⟩ none
          ⟨['k'], some ['v'], false⟩).ret :=
  ⟨rfl, by decide,
    (c5_get_default_and_found ⟨false, []⟩ none [] ['m'] (.pyStr ['x'])).1 rfl (by decide),
    (c5_get_default_and_found ⟨false, []⟩ none [] ['m'] .pyNull).2.1 rfl,
    rfl,
    ((c5_get_default_and_found ⟨false, []⟩ none [⟨['k'], some ['v'], false⟩] ['k']
      (.pyStr ['x'])).2.2 ⟨['k'], some ['v'], false⟩ rfl).1,
    ((c5_get_default_and_found ⟨false, []⟩ none [⟨['k'], some ['v'], false⟩] ['k']
      (.pyStr ['x'])).2.2 ⟨['k'], some ['v'], false⟩ rfl).2⟩

/-- Witness for C6: `setdefault` on an absent `"k"` with defaults `None`
and `"d"`, then again with `"o"`. -/
theorem c6_witness :
    queryFirstByKey ['k'] ([] : Store) = none ∧
    (¬ (['d'] : Str) = []) ∧
    (get_fernet ⟨false, []⟩ none).ret = .ok .nullFernet ∧
    ((Variable.setdefault ⟨false, []⟩ none [] ['k'] .pyNull false).ret
        = .error .valueError ∧
      (Variable.setdefault ⟨false, []⟩ none [] ['k'] .pyNull false).store = [] ∧
      (Variable.setdefault ⟨false, []⟩ none [] ['k'] (.pyStr ['d']) false).ret
        = .ok (.pyStr ['d']) ∧
      (Variable.setdefault ⟨false, []⟩ none [] ['k'] (.pyStr ['d']) false).store
        = (Variable.set ⟨false, []⟩ none [] ['k'] (.pyStr ['d']) false).store ∧
      (Variable.setdefault ⟨false, []⟩
          (Variable.setdefault ⟨false, []⟩ none [] ['k'] (.pyStr ['d']) false).cache
          (Variable.setdefault ⟨false, []⟩ none [] ['k'] (.pyStr ['d']) false).store
          ['k'] (.pyStr ['o']) false).ret = .ok (.pyStr ['d']) ∧
      (Variable.setdefault ⟨false, []⟩
          (Variable.setdefault ⟨false, []⟩ none [] ['k'] (.pyStr ['d']) false).cache
          (Variable.setdefault ⟨false, []⟩ none [] ['k'] (.pyStr ['d']) false).store
          ['k'] (.pyStr ['o']) false).store
        = (Variable.setdefault ⟨false, []⟩ none [] ['k'] (.pyStr ['d']) false).store) :=
  ⟨rfl, by decide, rfl,
    c6_setdefault ⟨false, []⟩ [] ['k'] ['d'] ['o'] .nullFernet rfl (by decide) rfl⟩

/-- Witness for C7: a plain write of `"v"` under `"k"` into the empty
store. -/
theorem c7_witness :
    (Variable.set ⟨false, []⟩ none [] ['k'] (.pyStr ['v']) false).ret = .ok () ∧
    (∃ stored rec,
      (if false then json_dumps (.pyStr ['v']) else .ok (pyStrOf (.pyStr ['v'])))
        = .ok stored ∧
      (Variable.set_val ⟨false, []⟩ none ⟨['k'], none, false⟩ stored).ret = .ok rec ∧
      rec.key = ['k'] ∧
      (Variable.set ⟨false, []⟩ none [] ['k'] (.pyStr ['v']) false).store
        = deleteByKey ['k'] [] ++ [rec] ∧
      recordsFor ['k'] (Variable.set ⟨false, []⟩ none [] ['k']
        (.pyStr ['v']) false).store = [rec]) :=
  ⟨rfl, c7_set_delete_insert ⟨false, []⟩ none [] ['k'] (.pyStr ['v']) false rfl⟩

/-- Witness for C8: the round trip at `{"a": 1}` with no cipher, and a
malformed stored text `"z!"` (trailing garbage) propagating the decode
error. -/
theorem c8_witness :
    serializable1 (.pyDict [(['a'], .pyInt 1)]) = true ∧
    (get_fernet ⟨false, []⟩ none).ret = .ok .nullFernet ∧
    ((Variable.set ⟨false, []⟩ none [] ['k'] (.pyDict [(['a'], .pyInt 1)]) true).ret
        = .ok () ∧
      (Variable.get ⟨false, []⟩
        (Variable.set ⟨false, []⟩ none [] ['k'] (.pyDict [(['a'], .pyInt 1)]) true).cache
        (Variable.set ⟨false, []⟩ none [] ['k'] (.pyDict [(['a'], .pyInt 1)]) true).store
        ['k'] .pyNull true).ret = .ok (.pyDict [(['a'], .pyInt 1)])) ∧
    json_loads_opt (Variable.get_val ⟨false, []⟩ none
        ⟨['k'], some ['z', '!'], false⟩).ret = .error .jsonDecodeError ∧
    (Variable.get ⟨false, []⟩ none [⟨['k'], some ['z', '!'], false⟩] ['k']
        .pyNull true).ret = .error .jsonDecodeError :=
  ⟨by simp [serializable1, serializableKvs, serializableItems], rfl,
    (c8_json_roundtrip ⟨false, []⟩ [] ['k'] (.pyDict [(['a'], .pyInt 1)]) .nullFernet
      (by simp [serializable1, serializableKvs, serializableItems]) rfl).1,
    rfl,
    (c8_json_roundtrip ⟨false, []⟩ [] ['k'] (.pyDict [(['a'], .pyInt 1)]) .nullFernet
      (by simp [serializable1, serializableKvs, serializableItems]) rfl).2
      none ⟨['k'], some ['z', '!'], false⟩ [⟨['k'], some ['z', '!'], false⟩]
      .jsonDecodeError rfl rfl⟩

/-- Witness for C9: resolution fails on a 1-character key, leaving the
cache unset; it succeeds on a valid key, caching the instance and
returning it again. -/
theorem c9_witness :
    get_fernet ⟨true, ['x']⟩ none = ⟨.error .airflowException, none, []⟩ ∧
    (none : Option Fernet) = none ∧
    get_fernet ⟨true, List.replicate 44 'a'⟩ none
      = ⟨.ok (.multiFernet (List.replicate 44 'a') []),
          some (.multiFernet (List.replicate 44 'a') []), []⟩ ∧
    ((some (.multiFernet (List.replicate 44 'a') []) : Option Fernet)
        = some (.multiFernet (List.replicate 44 'a') []) ∧
      get_fernet ⟨true, List.replicate 44 'a'⟩
          (some (.multiFernet (List.replicate 44 'a') []))
        = ⟨.ok (.multiFernet (List.replicate 44 'a') []),
            some (.multiFernet (List.replicate 44 'a') []), []⟩) :=
  ⟨rfl,
    (c9_resolution_caching ⟨true, ['x']⟩).1 .airflowException none [] rfl,
    rfl,
    (c9_resolution_caching ⟨true, List.replicate 44 'a'⟩).2
      (.multiFernet (List.replicate 44 'a') [])
      (some (.multiFernet (List.replicate 44 'a') [])) [] rfl⟩

/-- Witness for C10: a garbage encrypted row under a valid key makes the
deserializing `get` raise `TypeError`. -/
theorem c10_witness :
    queryFirstByKey ['k'] [⟨['k'], some ['x'], true⟩]
      = some ⟨['k'], some ['x'], true⟩ ∧
    (Variable.get_val ⟨true, List.replicate 44 'a'⟩ none
      ⟨['k'], some ['x'], true⟩).ret = none ∧
    (Variable.get ⟨true, List.replicate 44 'a'⟩ none [⟨['k'], some ['x'], true⟩]
      ['k'] .pyNull true).ret = .error .typeError :=
  ⟨rfl, by decide,
    c10_deserialize_after_decrypt_failure ⟨true, List.replicate 44 'a'⟩ none
      [⟨['k'], some ['x'], true⟩] ['k'] ⟨['k'], some ['x'], true⟩ rfl (by decide)⟩

/-- Counterexample to C6 as stated, at the concrete input `d = ""` (a
non-null default the claim covers): on the absent key `"k"`,
`setdefault("k", "")` returns `""`, but — because the empty string is
falsy, so `set_val` no-ops and the inserted row holds a NULL value — the
subsequent `setdefault("k", "o")` returns `None`, not the originally
stored `""`. -/
theorem c6_counterexample :
    queryFirstByKey ['k'] ([] : Store) = none ∧
    (¬ (PyObj.pyStr []).isNull = true) ∧
    (Variable.setdefault ⟨false, []⟩ none [] ['k'] (.pyStr []) false).ret
      = .ok (.pyStr []) ∧
    (Variable.setdefault ⟨false, []⟩ none [] ['k'] (.pyStr []) false).store
      = [⟨['k'], none, false⟩] ∧
    (Variable.setdefault ⟨false, []⟩
        (Variable.setdefault ⟨false, []⟩ none [] ['k'] (.pyStr []) false).cache
        (Variable.setdefault ⟨false, []⟩ none [] ['k'] (.pyStr []) false).store
        ['k'] (.pyStr ['o']) false).ret = .ok .pyNull ∧
    ¬ (Variable.setdefault ⟨false, []⟩
        (Variable.setdefault ⟨false, []⟩ none [] ['k'] (.pyStr []) false).cache
        (Variable.setdefault ⟨false, []⟩ none [] ['k'] (.pyStr []) false).store
        ['k'] (.pyStr ['o']) false).ret = .ok (.pyStr []) :=
  ⟨rfl, by decide, rfl, rfl, rfl, by
    intro h
    injection (show (.ok PyObj.pyNull : Except PyErr PyObj) = .ok (.pyStr []) from h)
      with h2
    exact PyObj.noConfusion h2⟩
